import Mathlib

/-!
Verification of the request-admission middleware (auth interceptor +
layered rate limiter) of `exchange-shared`, shallowly embedded from
`pkg/interceptors/auth.go`, `pkg/interceptors/rate_limiter.go` and
`pkg/common/user_id.go`.

Go maps are embedded as association lists with at most one binding per
key (`lookupA` / `insertA` / `eraseA`); timestamps are integers; the
token bucket `rate.Limiter` is an external capability and is modelled
from its spec contract (see `Limiter`).  Mutex-protected sequential
executions are modelled as plain state passing: every claim below is
decided by a sequential trace, which every concurrent schedule of the
Go code can also produce.
-/

/-- Association-list lookup, first binding wins (model of Go map read). -/
def lookupA {α : Type} : List (String × α) → String → Option α
  | [], _ => none
  | (k, v) :: rest, key => if k = key then some v else lookupA rest key

/-- Association-list insert-or-replace (model of Go map write `m[k] = v`). -/
def insertA {α : Type} : List (String × α) → String → α → List (String × α)
  | [], key, v => [(key, v)]
  | (k, w) :: rest, key, v =>
      if k = key then (key, v) :: rest else (k, w) :: insertA rest key v

/-- Association-list erase (model of Go `delete(m, k)`). -/
def eraseA {α : Type} : List (String × α) → String → List (String × α)
  | [], _ => []
  | (k, w) :: rest, key => if k = key then rest else (k, w) :: eraseA rest key

/-- Modelled from the spec: the token-bucket primitive
(`golang.org/x/time/rate.Limiter`) is outside this repository; the spec
treats it as a supplied capability holding a rate (tokens/second) and a
burst capacity whose `Allow()` atomically consumes one token if available.
For the instantaneous-call properties below no refill occurs, so the
state is the current token count. -/
structure Limiter where
  rate : Nat
  burst : Nat
  tokens : Nat
deriving DecidableEq, Repr

/-- Model of `rate.NewLimiter(limit, burst)`: a fresh bucket starts full. -/
def Limiter.new (rate burst : Nat) : Limiter :=
  { rate := rate, burst := burst, tokens := burst }

/-- Model of `Allow()`: consume one token if available, report whether the call may
proceed; a failed `Allow` consumes nothing. -/
def Limiter.allow (l : Limiter) : Bool × Limiter :=
  if l.tokens > 0 then (true, { l with tokens := l.tokens - 1 }) else (false, l)

/-- Model of `strings.HasPrefix(s, p)` (Go compares bytes; on the ASCII data of
this development, character-wise comparison coincides). -/
def goStartsWith (s p : String) : Bool := List.isPrefixOf p.data s.data

/-- The Go slice expression `s[n:]`.  In Go it is defined only for
`n ≤ len(s)` and panics otherwise; the caller below guards the panic
case explicitly, so this total version is only applied when defined. -/
def goSliceFrom (s : String) (n : Nat) : String := String.mk (s.data.drop n)

/-- Model of `len(s)` for the ASCII strings of this development. -/
def goLen (s : String) : Nat := s.data.length

/-- gRPC metadata: a map from header name to the list of its values
(`metadata.MD`). -/
abbrev Metadata := List (String × List String)

/-- Model of `md.Get(key)`: all values of a header, `[]` when absent. -/
def mdGet (md : Metadata) (key : String) : List String :=
  (lookupA md key).getD []

/-- A dynamically typed Go value (`interface{}`), as stored in
`jwt.MapClaims` and in `context.WithValue`.  `nilv` is the nil interface a
Go map returns for a missing key. -/
inductive GoVal where
  | str : String → GoVal
  | strList : List String → GoVal
  | nilv : GoVal
deriving DecidableEq, Repr

/-- Model of `jwt.MapClaims`: a map from claim name to dynamic value. -/
abbrev MapClaims := List (String × GoVal)

/-- Go map read on claims: missing keys yield the nil interface value. -/
def mapGetV (claims : MapClaims) (key : String) : GoVal :=
  (lookupA claims key).getD .nilv

/-- Type assertion `v.(string)`: `none` means the assertion panics. -/
def asString : GoVal → Option String
  | .str s => some s
  | _ => none

/-- Type assertion `v.([]string)`: `none` means the assertion panics. -/
def asStrList : GoVal → Option (List String)
  | .strList l => some l
  | _ => none

/-- The call-scoped `context.Context` as the middleware uses it: the
incoming gRPC metadata (`metadata.FromIncomingContext`) plus the
string-keyed values added by `context.WithValue`. -/
structure GoContext where
  incomingMD : Option Metadata
  values : List (String × GoVal)
deriving DecidableEq, Repr

/-- Model of `common.GetUserID` (pkg/common/user_id.go): reads the `user_id` entry
of the INCOMING METADATA, returning `""` when metadata or the entry is
absent. -/
def GetUserID (ctx : GoContext) : String :=
  match ctx.incomingMD with
  | none => ""
  | some md =>
    match mdGet md "user_id" with
    | [] => ""
    | v :: _ => v

/-- gRPC status categories used by the middleware. -/
inductive Code where
  | Unauthenticated
  | InvalidArgument
  | ResourceExhausted
deriving DecidableEq, Repr

/-- Outcome of `AuthInterceptor` on one call: the result of the handler, an
error status returned before the handler runs, or a runtime panic. -/
inductive AuthResult where
  | handled : GoVal → AuthResult
  | err : Code → String → AuthResult
  | panicked : String → AuthResult
deriving DecidableEq, Repr

/-- Model of `AuthInterceptor` (pkg/interceptors/auth.go, lines 23-58).  The
validator `Validate(token) -> (Claims, error)` and the next handler are
parameters.  Faithful points: the scheme check is
`strings.HasPrefix(token, "Bearer")` — WITHOUT the trailing space — while
the strip is `token[7:]`, which panics when the value is shorter than 7;
the claim injections are unchecked type assertions, which panic when the
claim is missing or of another dynamic type; the subject, roles and
permissions are injected with `context.WithValue` under raw string keys. -/
def authInterceptor (validate : String → Except String MapClaims)
    (handler : GoContext → GoVal) (ctx : GoContext) : AuthResult :=
  match ctx.incomingMD with
  | none => .err .Unauthenticated "missing metadata"
  | some md =>
    match mdGet md "authorization" with
    | [] => .err .Unauthenticated "missing authorization header"
    | token :: _ =>
      if !(goStartsWith token "Bearer") then
        .err .Unauthenticated "invalid authorization format"
      else if goLen token < 7 then
        .panicked "slice bounds out of range"
      else
        match validate (goSliceFrom token 7) with
        | .error e => .err .Unauthenticated ("invalid token: " ++ e)
        | .ok claims =>
          match asString (mapGetV claims "sub") with
          | none => .panicked "interface conversion"
          | some sub =>
            match asStrList (mapGetV claims "roles") with
            | none => .panicked "interface conversion"
            | some roles =>
              match asStrList (mapGetV claims "permissions") with
              | none => .panicked "interface conversion"
              | some perms =>
                let vals := insertA (insertA (insertA ctx.values "user_id" (.str sub)) "roles" (.strList roles)) "permissions" (.strList perms)
                .handled (handler { ctx with values := vals })

/-- Model of `userLimiterStruct` (rate_limiter.go, lines 47-50). -/
structure userLimiterStruct where
  limiter : Limiter
  lastUsed : Int
deriving DecidableEq, Repr

/-- Model of `MethodRateLimiterInterceptor` state (rate_limiter.go, lines 31-45). -/
structure MethodRateLimiterInterceptor where
  methodLimiters : List (String × Limiter)
  defaultLimiter : Limiter
  perUserLimiters : List (String × userLimiterStruct)
  perUserRate : Nat
  perUserBurst : Nat
  cleanupInterval : Int
  maxAge : Int
deriving DecidableEq, Repr

/-- Model of `NewMethodRateLimiterInterceptor` (lines 53-65): cleanup every 5
minutes, max idle age 15 minutes (seconds here). -/
def NewMethodRateLimiterInterceptor (defaultLimit defaultBurst : Nat) :
    MethodRateLimiterInterceptor :=
  { methodLimiters := []
    defaultLimiter := Limiter.new defaultLimit defaultBurst
    perUserLimiters := []
    perUserRate := 0
    perUserBurst := 0
    cleanupInterval := 5 * 60
    maxAge := 15 * 60 }

/-- Model of `SetMethodLimit` (lines 68-72): create or replace the limiter of a method. -/
def SetMethodLimit (m : MethodRateLimiterInterceptor) (method : String)
    (limit burst : Nat) : MethodRateLimiterInterceptor :=
  { m with methodLimiters := insertA m.methodLimiters method (Limiter.new limit burst) }

/-- Model of `SetPerUserLimit` (lines 74-77). -/
def SetPerUserLimit (m : MethodRateLimiterInterceptor) (limit burst : Nat) :
    MethodRateLimiterInterceptor :=
  { m with perUserRate := limit, perUserBurst := burst }

/-- The per-method resolution step of `Interceptor()` (lines 93-98):
`limiter := m.defaultLimiter; if methodLimiter, ok := m.methodLimiters[method]; ok { limiter = methodLimiter }`. -/
def resolveMethodLimiter (m : MethodRateLimiterInterceptor) (method : String) : Limiter :=
  match lookupA m.methodLimiters method with
  | some methodLimiter => methodLimiter
  | none => m.defaultLimiter

/-- Outcome of one call through `Interceptor()`: `.proceed` is the sole
outcome that invokes the next handler; every `.err` is returned before
the handler runs. -/
inductive CallResult where
  | proceed
  | err : Code → String → CallResult
deriving DecidableEq, Repr

/-- The per-user section of `Interceptor()` (lines 104-131).  Faithful
points: on a missing entry the code creates a fresh `userLimiterStruct`
under the write lock but NEVER stores it in `perUserLimiters` (the inner
branch unlocks without a map insert), so the created entry and its
consumed token are dropped; on a found entry `lastUsed` is refreshed and
a token consumed through the shared pointer, which the model writes back
into the table. -/
def perUserCheck (m : MethodRateLimiterInterceptor) (ctx : GoContext)
    (now : Int) : CallResult × MethodRateLimiterInterceptor :=
  if m.perUserRate > 0 then
    let userID := GetUserID ctx
    if userID = "" then
      (.err .InvalidArgument "user_id is required", m)
    else
      match lookupA m.perUserLimiters userID with
      | some user =>
        let user := { user with lastUsed := now }
        let (okU, lu) := user.limiter.allow
        let user := { user with limiter := lu }
        let m := { m with perUserLimiters := insertA m.perUserLimiters userID user }
        if !okU then (.err .ResourceExhausted "per-user rate limit exceeded", m)
        else (.proceed, m)
      | none =>
        let user : userLimiterStruct :=
          { limiter := Limiter.new m.perUserRate m.perUserBurst, lastUsed := now }
        let (okU, _) := user.limiter.allow
        if !okU then (.err .ResourceExhausted "per-user rate limit exceeded", m)
        else (.proceed, m)
  else (.proceed, m)

/-- One call through `Interceptor()` (lines 80-135): global tier, then
per-method tier (falling back to — and consuming from — the default
limiter when the method is unconfigured), then the per-user tier. -/
def interceptor (m : MethodRateLimiterInterceptor) (method : String)
    (ctx : GoContext) (now : Int) : CallResult × MethodRateLimiterInterceptor :=
  let (okG, dl) := m.defaultLimiter.allow
  let m := { m with defaultLimiter := dl }
  if !okG then (.err .ResourceExhausted "global rate limit exceeded", m)
  else
    match lookupA m.methodLimiters method with
    | some methodLimiter =>
      let (okM, ml) := methodLimiter.allow
      let m := { m with methodLimiters := insertA m.methodLimiters method ml }
      if !okM then (.err .ResourceExhausted "method rate limit exceeded", m)
      else perUserCheck m ctx now
    | none =>
      let (okM, dl2) := m.defaultLimiter.allow
      let m := { m with defaultLimiter := dl2 }
      if !okM then (.err .ResourceExhausted "method rate limit exceeded", m)
      else perUserCheck m ctx now

/-- A sequence of instantaneous calls through `Interceptor()`. -/
def runCalls (m : MethodRateLimiterInterceptor)
    (calls : List (String × GoContext)) (now : Int) :
    List CallResult × MethodRateLimiterInterceptor :=
  match calls with
  | [] => ([], m)
  | (method, ctx) :: rest =>
    let (r, m1) := interceptor m method ctx now
    let (rs, m2) := runCalls m1 rest now
    (r :: rs, m2)

/-- One tick of `cleanupOldUsers` (lines 141-162): collect the stale set
under the read lock, then — faithfully to the source — `continue` (skip
the delete pass) whenever the stale set is non-empty, and otherwise run
the delete pass over the (empty) stale set. -/
def cleanupOldUsersTick (m : MethodRateLimiterInterceptor) (now : Int) :
    MethodRateLimiterInterceptor :=
  let toDelete :=
    (m.perUserLimiters.filter (fun p => now - p.2.lastUsed > m.maxAge)).map (·.1)
  if toDelete.length > 0 then m
  else { m with perUserLimiters :=
    toDelete.foldl (fun t userID => eraseA t userID) m.perUserLimiters }

/-- A context whose incoming metadata carries only a `user_id` header. -/
def ctxUser (u : String) : GoContext :=
  { incomingMD := some [("user_id", [u])], values := [] }

/-- A context with no incoming metadata at all. -/
def ctxNoMD : GoContext := { incomingMD := none, values := [] }

/-- Registry with a generous global limiter and per-caller template
rate 1, burst 1. -/
def mPerUserOne : MethodRateLimiterInterceptor :=
  SetPerUserLimit (NewMethodRateLimiterInterceptor 100 100) 1 1

/-- Registry with global rate 2, burst 2 and no method or per-caller
limits configured. -/
def mGlobalTwo : MethodRateLimiterInterceptor :=
  NewMethodRateLimiterInterceptor 2 2

/-- Registry whose caller table holds one entry, last seen at time 0,
with `maxAge` 10. -/
def mStaleTable : MethodRateLimiterInterceptor :=
  { NewMethodRateLimiterInterceptor 5 5 with
    perUserLimiters := [("u1", { limiter := Limiter.new 1 1, lastUsed := 0 })]
    maxAge := 10 }

/-- A validator accepting exactly the token `"tok"` with subject
`"alice"` and empty roles/permissions. -/
def validateAlice : String → Except String MapClaims := fun t =>
  if t = "tok" then
    .ok [("sub", .str "alice"), ("roles", .strList []), ("permissions", .strList [])]
  else .error "bad signature"

/-- A context presenting the credential `Bearer tok` and nothing else. -/
def ctxAuthTok : GoContext :=
  { incomingMD := some [("authorization", ["Bearer tok"])], values := [] }

/-- A context presenting the credential `BearerXabc` (no space after the
scheme word). -/
def ctxBearerX : GoContext :=
  { incomingMD := some [("authorization", ["BearerXabc"])], values := [] }

/-- A context presenting the six-character credential `Bearer` exactly. -/
def ctxBearerBare : GoContext :=
  { incomingMD := some [("authorization", ["Bearer"])], values := [] }

/-- C1: the claim says the first evaluation of the per-caller tier
creates one `CallerLimiterEntry` AND INSERTS it into the caller table,
so later calls resolve to that stored entry.  On the code this fails:
with the per-caller template configured (rate 1, burst 1), the first
call from identity `u1` is admitted, yet afterwards the caller table is
still empty — the created entry was dropped, never inserted (the
write-lock branch of `Interceptor` unlocks without a map store). -/
theorem firstCallerEvaluation_insertsNoEntry :
    (interceptor mPerUserOne "m" (ctxUser "u1") 0).fst = .proceed ∧
    (interceptor mPerUserOne "m" (ctxUser "u1") 0).snd.perUserLimiters = [] ∧
    lookupA (interceptor mPerUserOne "m" (ctxUser "u1") 0).snd.perUserLimiters "u1" = none := by
  decide

/-- C2: the claim says a sweep tick removes exactly the scanned-stale
set.  On the code this fails: with one entry last seen at time 0,
`maxIdleAge = 10` and the tick at time 100, the entry is scanned as
stale (100 - 0 > 10) yet the tick leaves the table unchanged —
`cleanupOldUsers` skips its delete pass (`continue`) precisely when the
stale set is non-empty. -/
theorem sweepTick_retainsStaleEntry :
    (100 : Int) - 0 > mStaleTable.maxAge ∧
    cleanupOldUsersTick mStaleTable 100 = mStaleTable ∧
    lookupA (cleanupOldUsersTick mStaleTable 100).perUserLimiters "u1" =
      some { limiter := Limiter.new 1 1, lastUsed := 0 } := by
  decide

/-- C4: the claim says every authorization value that does not start
with the full prefix `"Bearer "` is rejected as malformed without
invoking the validator.  On the code this fails: `"BearerXabc"` does not
start with `"Bearer "`, yet the interceptor invokes the validator — with
argument `"abc"` (the error echoes the input of the validator), because the
code checks only the six-character prefix `"Bearer"` while stripping
seven characters. -/
theorem authPassesNonBearerSpaceValueToValidator :
    goStartsWith "BearerXabc" "Bearer " = false ∧
    authInterceptor (fun t => .error t) (fun _ => .nilv) ctxBearerX =
      .err .Unauthenticated "invalid token: abc" := by
  decide

/-- C5: the claim says the subject injected by the Auth stage is the
identity the Admission stage reads.  On the code this fails: for the
credential `Bearer tok` validated to subject `"alice"`, the context of the handler carries the injected value `"alice"` under the key `user_id`,
but `GetUserID` — the function the per-caller tier calls on that very
context — returns `""`, because it reads the `user_id` entry of the
incoming METADATA, not the context value the Auth stage wrote. -/
theorem injectedSubjectNotReadByAdmission :
    authInterceptor validateAlice
      (fun ctx => (lookupA ctx.values "user_id").getD .nilv) ctxAuthTok =
      .handled (.str "alice") ∧
    authInterceptor validateAlice
      (fun ctx => .str (GetUserID ctx)) ctxAuthTok =
      .handled (.str "") := by
  decide

/-- C6: the claim says that with the per-caller template at rate 1,
burst 1, the second instantaneous call from `u1` is rejected with
ResourceExhausted while an interleaved call from `u2` is admitted.  On
the code the second `u1` call is ALSO admitted: since the entry of the first call was never inserted (C1), the second call again finds no entry and
builds a fresh, full limiter. -/
theorem perCallerLimit_secondCallAdmitted :
    (runCalls mPerUserOne
      [("m", ctxUser "u1"), ("m", ctxUser "u2"), ("m", ctxUser "u1")] 0).fst =
      [.proceed, .proceed, .proceed] := by
  decide

/-- C7 counterexample: the claim predicts that with the global limiter
at rate 2, burst 2 and no method limiter configured, three
instantaneous calls yield admit, admit, reject.  The trace of the code is
not that list. -/
theorem globalBurstTwo_counterexample :
    (runCalls mGlobalTwo [("m", ctxNoMD), ("m", ctxNoMD), ("m", ctxNoMD)] 0).fst ≠
      [.proceed, .proceed, .err .ResourceExhausted "global rate limit exceeded"] := by
  decide

/-- C7 amended: with the global limiter at rate 2, burst 2 and no
method limiter configured, three instantaneous calls yield admit,
reject, reject (each with ResourceExhausted at the global tier): the
method tier falls back to the SAME default limiter and consumes a
second global token for every admitted call. -/
theorem globalBurstTwo_amended :
    (runCalls mGlobalTwo [("m", ctxNoMD), ("m", ctxNoMD), ("m", ctxNoMD)] 0).fst =
      [.proceed,
        .err .ResourceExhausted "global rate limit exceeded",
        .err .ResourceExhausted "global rate limit exceeded"] := by
  decide

/-- C10: the claim says `AuthInterceptor` never panics, in particular on
the six-character value `Bearer` and on accepted tokens whose claims
lack a string `sub` or `[]string` roles/permissions.  On the code both
panic: `Bearer` passes the (space-less) prefix check and then
`token[7:]` is out of range; an accepted token with an empty claim map
hits the unchecked type assertion `(*claims)["sub"].(string)`. -/
theorem authPanics_onShortValueAndUntypedClaims :
    authInterceptor validateAlice (fun _ => .nilv) ctxBearerBare =
      .panicked "slice bounds out of range" ∧
    authInterceptor (fun _ => .ok []) (fun _ => .nilv) ctxAuthTok =
      .panicked "interface conversion" := by
  decide

/-- Inserting a binding makes it the one found at its key. -/
theorem lookupA_insertA_self {α : Type} (t : List (String × α)) (k : String) (v : α) :
    lookupA (insertA t k v) k = some v := by
  induction t with
  | nil => simp [insertA, lookupA]
  | cons hd tl ih =>
    rcases hd with ⟨k1, v1⟩
    by_cases h : k1 = k
    · simp [insertA, h, lookupA]
    · simp [insertA, h, lookupA, ih]

/-- Registry with method `m` configured at rate 3, burst 4. -/
def mMethodCfg : MethodRateLimiterInterceptor :=
  { NewMethodRateLimiterInterceptor 5 5 with methodLimiters := [("m", Limiter.new 3 4)] }

/-- C8: the method tier resolves a method absent from the table to the
default/global limiter and a present method to its configured limiter;
`SetMethodLimit` replaces any earlier limiter for the method, and a call
to that method consults the limiter last set (here: one with zero burst,
so the call is rejected at the method tier). -/
theorem methodTierResolution (m : MethodRateLimiterInterceptor) (method : String)
    (l : Limiter) (limit burst limit2 burst2 : Nat) (ctx : GoContext) (now : Int) :
    (lookupA m.methodLimiters method = none →
      resolveMethodLimiter m method = m.defaultLimiter) ∧
    (lookupA m.methodLimiters method = some l →
      resolveMethodLimiter m method = l) ∧
    resolveMethodLimiter (SetMethodLimit m method limit burst) method =
      Limiter.new limit burst ∧
    resolveMethodLimiter
      (SetMethodLimit (SetMethodLimit m method limit2 burst2) method limit burst) method =
      Limiter.new limit burst ∧
    (0 < m.defaultLimiter.tokens →
      (interceptor (SetMethodLimit m method limit 0) method ctx now).fst =
        .err .ResourceExhausted "method rate limit exceeded") := by
  refine ⟨?_, ?_, ?_, ?_, ?_⟩
  · intro h; simp [resolveMethodLimiter, h]
  · intro h; simp [resolveMethodLimiter, h]
  · simp [resolveMethodLimiter, SetMethodLimit, lookupA_insertA_self]
  · simp [resolveMethodLimiter, SetMethodLimit, lookupA_insertA_self]
  · intro h
    simp [interceptor, SetMethodLimit, Limiter.allow, h, lookupA_insertA_self, Limiter.new]

/-- Witness for `methodTierResolution` at concrete registries. -/
theorem methodTierResolution_witness :
    resolveMethodLimiter mGlobalTwo "m" = mGlobalTwo.defaultLimiter ∧
    resolveMethodLimiter mMethodCfg "m" = Limiter.new 3 4 ∧
    (interceptor (SetMethodLimit mGlobalTwo "m" 9 0) "m" ctxNoMD 0).fst =
      .err .ResourceExhausted "method rate limit exceeded" :=
  ⟨(methodTierResolution mGlobalTwo "m" (Limiter.new 3 4) 9 0 0 0 ctxNoMD 0).1 (by decide),
   (methodTierResolution mMethodCfg "m" (Limiter.new 3 4) 9 0 0 0 ctxNoMD 0).2.1 (by decide),
   (methodTierResolution mGlobalTwo "m" (Limiter.new 3 4) 9 0 0 0 ctxNoMD 0).2.2.2.2 (by decide)⟩

/-- The per-user section returns admit, missing-identity, or the
per-user exhaustion error — nothing else. -/
theorem perUserCheck_fst_cases (m : MethodRateLimiterInterceptor)
    (ctx : GoContext) (now : Int) :
    (perUserCheck m ctx now).fst = .proceed ∨
    (perUserCheck m ctx now).fst = .err .InvalidArgument "user_id is required" ∨
    (perUserCheck m ctx now).fst = .err .ResourceExhausted "per-user rate limit exceeded" := by
  by_cases hR : m.perUserRate > 0
  · by_cases hU : GetUserID ctx = ""
    · simp [perUserCheck, hR, hU]
    · cases hL : lookupA m.perUserLimiters (GetUserID ctx) with
      | some user =>
        by_cases hT : user.limiter.tokens > 0
        · simp [perUserCheck, hR, hU, hL, Limiter.allow, hT]
        · simp [perUserCheck, hR, hU, hL, Limiter.allow, hT]
      | none =>
        by_cases hT : (Limiter.new m.perUserRate m.perUserBurst).tokens > 0
        · simp [perUserCheck, hR, hU, hL, Limiter.allow, hT]
        · simp [perUserCheck, hR, hU, hL, Limiter.allow, hT]
  · simp [perUserCheck, hR]

/-- The per-user section never emits the global-tier or method-tier
exhaustion errors. -/
theorem perUserCheck_fst_ne (m : MethodRateLimiterInterceptor)
    (ctx : GoContext) (now : Int) :
    (perUserCheck m ctx now).fst ≠ .err .ResourceExhausted "global rate limit exceeded" ∧
    (perUserCheck m ctx now).fst ≠ .err .ResourceExhausted "method rate limit exceeded" := by
  rcases perUserCheck_fst_cases m ctx now with hc | hc | hc <;> rw [hc] <;>
    exact ⟨by decide, by decide⟩

/-- C3: admission short-circuits.  A call rejected at the global tier
leaves the whole registry — in particular every method-tier and
caller-tier budget — exactly as it was, and a call rejected at the
method tier leaves the caller table (hence every caller budget)
unchanged. -/
theorem rejectionConsumesNoLowerTierToken (m : MethodRateLimiterInterceptor)
    (method : String) (ctx : GoContext) (now : Int) :
    ((interceptor m method ctx now).fst =
        .err .ResourceExhausted "global rate limit exceeded" →
      (interceptor m method ctx now).snd = m) ∧
    ((interceptor m method ctx now).fst =
        .err .ResourceExhausted "method rate limit exceeded" →
      (interceptor m method ctx now).snd.perUserLimiters = m.perUserLimiters) := by
  by_cases hG : m.defaultLimiter.tokens > 0
  · cases hL : lookupA m.methodLimiters method with
    | some l =>
      by_cases hT : l.tokens > 0
      · simp only [interceptor, Limiter.allow, hG, if_true, hL, hT, Bool.not_true,
          Bool.false_eq_true, if_false]
        exact ⟨fun h => absurd h (perUserCheck_fst_ne _ ctx now).1,
               fun h => absurd h (perUserCheck_fst_ne _ ctx now).2⟩
      · simp [interceptor, Limiter.allow, hG, hL, hT]
    | none =>
      by_cases hT : m.defaultLimiter.tokens - 1 > 0
      · simp only [interceptor, Limiter.allow, hG, if_true, hL, hT, Bool.not_true,
          Bool.false_eq_true, if_false]
        exact ⟨fun h => absurd h (perUserCheck_fst_ne _ ctx now).1,
               fun h => absurd h (perUserCheck_fst_ne _ ctx now).2⟩
      · simp [interceptor, Limiter.allow, hG, hL, hT]
  · simp [interceptor, Limiter.allow, hG]

/-- Registry whose global/default limiter has no token (burst 0). -/
def mGlobalEmpty : MethodRateLimiterInterceptor :=
  NewMethodRateLimiterInterceptor 5 0

/-- Registry with tokens at the global tier but an exhausted limiter
configured for method `m`. -/
def mMethodZero : MethodRateLimiterInterceptor :=
  { NewMethodRateLimiterInterceptor 5 5 with
    methodLimiters := [("m", Limiter.new 0 0)] }

/-- Witness for `rejectionConsumesNoLowerTierToken`: a globally rejected
call leaves the registry untouched; a method-tier rejected call leaves
the caller table untouched. -/
theorem rejectionConsumesNoLowerTierToken_witness :
    (interceptor mGlobalEmpty "m" ctxNoMD 0).snd = mGlobalEmpty ∧
    (interceptor mMethodZero "m" ctxNoMD 0).snd.perUserLimiters =
      mMethodZero.perUserLimiters :=
  ⟨(rejectionConsumesNoLowerTierToken mGlobalEmpty "m" ctxNoMD 0).1 (by decide),
   (rejectionConsumesNoLowerTierToken mMethodZero "m" ctxNoMD 0).2 (by decide)⟩

/-- C9: every failure of the middleware is surfaced with the status
category of the failure table of the spec — missing metadata, missing
credential, malformed credential and invalid token as Unauthenticated;
missing identity with per-caller limiting configured as InvalidArgument;
global, method and caller exhaustion as ResourceExhausted.  Each
conclusion is an `err` result, which both interceptors return before the
next handler runs (`handled`/`proceed` are the only handler-invoking
outcomes), and it holds for every handler, so the handler is never
consulted on a failure. -/
theorem failureSurface :
    (∀ validate handler (ctx : GoContext),
      ctx.incomingMD = none →
        authInterceptor validate handler ctx =
          .err .Unauthenticated "missing metadata") ∧
    (∀ validate handler (ctx : GoContext) (md : Metadata),
      ctx.incomingMD = some md → mdGet md "authorization" = [] →
        authInterceptor validate handler ctx =
          .err .Unauthenticated "missing authorization header") ∧
    (∀ validate handler (ctx : GoContext) (md : Metadata) (tok : String)
        (rest : List String),
      ctx.incomingMD = some md → mdGet md "authorization" = tok :: rest →
      goStartsWith tok "Bearer" = false →
        authInterceptor validate handler ctx =
          .err .Unauthenticated "invalid authorization format") ∧
    (∀ validate handler (ctx : GoContext) (md : Metadata) (tok : String)
        (rest : List String) (e : String),
      ctx.incomingMD = some md → mdGet md "authorization" = tok :: rest →
      goStartsWith tok "Bearer" = true → 7 ≤ goLen tok →
      validate (goSliceFrom tok 7) = .error e →
        authInterceptor validate handler ctx =
          .err .Unauthenticated ("invalid token: " ++ e)) ∧
    (∀ (m : MethodRateLimiterInterceptor) (method : String) (ctx : GoContext)
        (now : Int),
      m.defaultLimiter.tokens = 0 →
        (interceptor m method ctx now).fst =
          .err .ResourceExhausted "global rate limit exceeded") ∧
    (∀ (m : MethodRateLimiterInterceptor) (method : String) (ctx : GoContext)
        (now : Int) (l : Limiter),
      0 < m.defaultLimiter.tokens → lookupA m.methodLimiters method = some l →
      l.tokens = 0 →
        (interceptor m method ctx now).fst =
          .err .ResourceExhausted "method rate limit exceeded") ∧
    (∀ (m : MethodRateLimiterInterceptor) (method : String) (ctx : GoContext)
        (now : Int) (l : Limiter),
      0 < m.defaultLimiter.tokens → lookupA m.methodLimiters method = some l →
      0 < l.tokens → 0 < m.perUserRate → GetUserID ctx = "" →
        (interceptor m method ctx now).fst =
          .err .InvalidArgument "user_id is required") ∧
    (∀ (m : MethodRateLimiterInterceptor) (method : String) (ctx : GoContext)
        (now : Int) (l : Limiter) (u : userLimiterStruct),
      0 < m.defaultLimiter.tokens → lookupA m.methodLimiters method = some l →
      0 < l.tokens → 0 < m.perUserRate → GetUserID ctx ≠ "" →
      lookupA m.perUserLimiters (GetUserID ctx) = some u → u.limiter.tokens = 0 →
        (interceptor m method ctx now).fst =
          .err .ResourceExhausted "per-user rate limit exceeded") := by
  refine ⟨?_, ?_, ?_, ?_, ?_, ?_, ?_, ?_⟩
  · intro validate handler ctx h
    simp [authInterceptor, h]
  · intro validate handler ctx md h hA
    simp [authInterceptor, h, hA]
  · intro validate handler ctx md tok rest h hA hP
    simp [authInterceptor, h, hA, hP]
  · intro validate handler ctx md tok rest e h hA hP hLen hV
    simp [authInterceptor, h, hA, hP, Nat.not_lt_of_le hLen, hV]
  · intro m method ctx now h
    simp [interceptor, Limiter.allow, h]
  · intro m method ctx now l hG hL hT
    simp [interceptor, Limiter.allow, hG, hL, hT]
  · intro m method ctx now l hG hL hT hR hU
    simp [interceptor, Limiter.allow, hG, hL, hT, perUserCheck, hR, hU]
  · intro m method ctx now l u hG hL hT hR hU hE hZ
    simp [interceptor, Limiter.allow, hG, hL, hT, perUserCheck, hR, hU, hE, hZ]

/-- Registry with all upper tiers open and per-caller limiting
configured, so the identity check is reached. -/
def mIdentityNeeded : MethodRateLimiterInterceptor :=
  { SetPerUserLimit (NewMethodRateLimiterInterceptor 5 5) 1 1 with
    methodLimiters := [("m", Limiter.new 3 3)] }

/-- Model of `mIdentityNeeded` with an exhausted caller entry for `u1`. -/
def mCallerZero : MethodRateLimiterInterceptor :=
  { mIdentityNeeded with
    perUserLimiters := [("u1", { limiter := Limiter.new 1 0, lastUsed := 0 })] }

/-- Witness for `failureSurface`: one concrete call per failure family —
missing metadata, exhausted global tier, missing identity with
per-caller limiting configured, and an exhausted caller budget. -/
theorem failureSurface_witness :
    authInterceptor validateAlice (fun _ => .nilv) ctxNoMD =
      .err .Unauthenticated "missing metadata" ∧
    (interceptor mGlobalEmpty "m" ctxNoMD 0).fst =
      .err .ResourceExhausted "global rate limit exceeded" ∧
    (interceptor mIdentityNeeded "m" ctxNoMD 0).fst =
      .err .InvalidArgument "user_id is required" ∧
    (interceptor mCallerZero "m" (ctxUser "u1") 0).fst =
      .err .ResourceExhausted "per-user rate limit exceeded" :=
  ⟨failureSurface.1 validateAlice (fun _ => .nilv) ctxNoMD (by decide),
   failureSurface.2.2.2.2.1 mGlobalEmpty "m" ctxNoMD 0 (by decide),
   failureSurface.2.2.2.2.2.2.1 mIdentityNeeded "m" ctxNoMD 0 (Limiter.new 3 3)
     (by decide) (by decide) (by decide) (by decide) (by decide),
   failureSurface.2.2.2.2.2.2.2 mCallerZero "m" (ctxUser "u1") 0 (Limiter.new 3 3)
     { limiter := Limiter.new 1 0, lastUsed := 0 }
     (by decide) (by decide) (by decide) (by decide) (by decide) (by decide) (by decide)⟩
